import Mathlib

/-!
Verification of the speech-capture pipeline of `reachy_mini_local_companion`
(`stt/audio_processor.py`, `stt/manager.py`, `stt/wake_word.py`).

The Python code is shallowly embedded: audio samples are rationals (standing
for the float32 samples; no float arithmetic from the source is relevant to
the verified properties except through comparisons, which are preserved),
machine integers are `Nat`/`Int`, Python `deque(maxlen=m)` is a list with an
explicit drop-from-the-front on overflow, and code that can raise returns
`Except String`.  External black boxes (the WebRTC VAD, the openWakeWord
scorer, the recognition engines' transcription) are oracle functions packaged
in an `Env`.
-/

/-- Python `int(q)` for a rational `q`: truncation toward zero. -/
def pyTrunc (q : ℚ) : ℤ := if 0 ≤ q then ⌊q⌋ else ⌈q⌉

/-- `collections.deque(maxlen := m)`: extending `buf` with `l` keeps only the
last `m` elements (ring semantics, old elements dropped from the front). -/
def dequeExtend (m : ℕ) (buf l : List ℚ) : List ℚ :=
  let r := buf ++ l
  r.drop (r.length - m)

/-- The successive frames handed to the WebRTC VAD:
`range(0, len(chunk) - frame_size + 1, frame_size)` in
`AudioProcessor.is_speech`, i.e. consecutive windows of `fs` samples while a
full window remains.  (`fs = 0` cannot occur at the sample rates used.) -/
def chunkFramesAux : ℕ → ℕ → List ℚ → List (List ℚ)
  | 0, _, _ => []
  | fuel + 1, fs, l =>
      if 0 < fs ∧ fs ≤ l.length then
        l.take fs :: chunkFramesAux fuel fs (l.drop fs)
      else []

def chunkFrames (fs : ℕ) (l : List ℚ) : List (List ℚ) :=
  chunkFramesAux l.length fs l

/-- `AudioState` from `stt/audio_processor.py`. -/
inductive AudioState where
  | idle
  | wake_detected
  | listening
  | processing
deriving DecidableEq, Repr

/-- The external black boxes consumed by the pipeline.
`vad = none` models an unavailable WebRTC VAD (import failure); a per-frame
verdict of `none` models the VAD raising on that frame (caught in
`is_speech`).  `transcribe` is the loaded engine's transcription behaviour;
`engineLoad`/`wwLoad` are the outcomes of the model-loading black boxes. -/
structure STTResult where
  text : String
  confidence : ℚ
  is_final : Bool
  duration_seconds : ℚ
deriving DecidableEq, Repr

structure Env where
  vad : Option (List ℚ → ℕ → Option Bool)
  wwScores : List ℚ → List (String × ℚ)
  transcribe : List ℚ → Except String STTResult
  engineLoad : Except String Unit
  wwLoad : Except String Unit

/-- `AudioProcessor` (`stt/audio_processor.py`): configuration attributes and
mutable state.  `max_samples`, `_silence_threshold` and `_vad_frame_size` are
the integers computed once in `__init__`; `silence_timeout_seconds` and
`max_duration_seconds` are the plain attributes that `STTManager.update_config`
overwrites. -/
structure AudioProcessor where
  sample_rate : ℕ
  max_duration_seconds : ℚ
  silence_timeout_seconds : ℚ
  vad_aggressiveness : ℕ
  max_samples : ℕ
  _state : AudioState
  _audio_buffer : List ℚ
  _silence_samples : ℕ
  _speech_samples : ℕ
  _silence_threshold : ℕ
  _vad_frame_size : ℕ

/-- `AudioProcessor.__init__`. -/
def apInit (sample_rate : ℕ) (max_duration_seconds : ℚ)
    (silence_timeout_seconds : ℚ) (vad_aggressiveness : ℕ) : AudioProcessor :=
  { sample_rate := sample_rate
    max_duration_seconds := max_duration_seconds
    silence_timeout_seconds := silence_timeout_seconds
    vad_aggressiveness := vad_aggressiveness
    max_samples := (pyTrunc ((sample_rate : ℚ) * max_duration_seconds)).toNat
    _state := AudioState.idle
    _audio_buffer := []
    _silence_samples := 0
    _speech_samples := 0
    _silence_threshold := (pyTrunc ((sample_rate : ℚ) * silence_timeout_seconds)).toNat
    _vad_frame_size := (pyTrunc ((sample_rate : ℚ) * 30 / 1000)).toNat }

/-- `AudioProcessor.set_state`: sets the state; the returned list is the
states actually entered (the debug log of state changes), used to express the
observable transition trace. -/
def AudioProcessor.set_state (ap : AudioProcessor) (s : AudioState) :
    AudioProcessor × List AudioState :=
  if s ≠ ap._state then ({ ap with _state := s }, [s]) else (ap, [])

/-- Sum of squares of the samples (the numerator of `np.mean(chunk ** 2)`). -/
def sumSq (l : List ℚ) : ℚ := (l.map (fun x => x * x)).sum

/-- `AudioProcessor.is_speech`.  Without a VAD, the energy fallback
`sqrt(mean(chunk²)) > 0.01` is expressed squared (`mean > 1/10000`; an empty
chunk gives NaN in Python, which compares as not-speech).  With a VAD, the
chunk is cut into `_vad_frame_size` windows; a frame verdict of `none` models
the `except Exception: pass` around the per-frame call. -/
def AudioProcessor.is_speech (env : Env) (ap : AudioProcessor)
    (chunk : List ℚ) : Bool :=
  match env.vad with
  | none =>
      if chunk.length = 0 then false
      else decide (sumSq chunk / (chunk.length : ℚ) > 1 / 10000)
  | some v =>
      let frames := chunkFrames ap._vad_frame_size chunk
      let counts := frames.foldl
        (fun (p : ℕ × ℕ) f =>
          match v f ap.sample_rate with
          | none => p
          | some b => (if b then p.1 + 1 else p.1, p.2 + 1))
        (0, 0)
      if counts.2 > 0 then decide (2 * counts.1 > counts.2) else false

/-- `AudioProcessor.process_chunk`.  Returns the updated processor together
with the list of states entered during the call; the state returned by the
Python method is the `_state` of the result. -/
def AudioProcessor.process_chunk (env : Env) (ap : AudioProcessor)
    (chunk : List ℚ) : AudioProcessor × List AudioState :=
  let chunk_samples := chunk.length
  match ap._state with
  | AudioState.idle => (ap, [])
  | AudioState.wake_detected =>
      let ap := { ap with _audio_buffer := [], _silence_samples := 0,
                          _speech_samples := 0 }
      let (ap, t) := ap.set_state AudioState.listening
      let ap := { ap with
        _audio_buffer := dequeExtend ap.max_samples ap._audio_buffer chunk,
        _speech_samples := ap._speech_samples + chunk_samples }
      (ap, t)
  | AudioState.listening =>
      let ap := { ap with
        _audio_buffer := dequeExtend ap.max_samples ap._audio_buffer chunk }
      let sp := ap.is_speech env chunk
      let ap :=
        if sp then
          { ap with _speech_samples := ap._speech_samples + chunk_samples,
                    _silence_samples := 0 }
        else
          { ap with _silence_samples := ap._silence_samples + chunk_samples }
      let (ap, t1) :=
        if ap._silence_samples ≥ ap._silence_threshold then
          ap.set_state AudioState.processing
        else (ap, [])
      let (ap, t2) :=
        if ap._audio_buffer.length ≥ ap.max_samples then
          ap.set_state AudioState.processing
        else (ap, [])
      (ap, t1 ++ t2)
  | AudioState.processing => (ap, [])

/-- `AudioProcessor.get_utterance`. -/
def AudioProcessor.get_utterance (ap : AudioProcessor) : List ℚ :=
  ap._audio_buffer

/-- `AudioProcessor.reset`. -/
def AudioProcessor.reset (ap : AudioProcessor) : AudioProcessor × List AudioState :=
  let ap := { ap with _audio_buffer := [], _silence_samples := 0,
                      _speech_samples := 0 }
  ap.set_state AudioState.idle

/-- `AudioProcessor.on_wake_word_detected`. -/
def AudioProcessor.on_wake_word_detected (ap : AudioProcessor) :
    AudioProcessor × List AudioState :=
  ap.set_state AudioState.wake_detected

/-- `AudioProcessor.on_transcription_complete`. -/
def AudioProcessor.on_transcription_complete (ap : AudioProcessor) :
    AudioProcessor × List AudioState :=
  ap.reset

/-- `STTEngineType` from `stt/manager.py`. -/
inductive STTEngineType where
  | vosk_small
  | vosk_large
  | whisper_tiny
  | whisper_base
  | whisper_small
deriving DecidableEq, Repr

/-- `STTConfig` from `stt/manager.py` (defaults as in the source). -/
structure STTConfig where
  enabled : Bool := true
  engine : STTEngineType := STTEngineType.vosk_small
  wake_word_enabled : Bool := true
  wake_word_threshold : ℚ := 1/2
  silence_timeout_seconds : ℚ := 3/2
  max_duration_seconds : ℚ := 10

/-- `STTStatus` from `stt/manager.py`. -/
structure STTStatus where
  enabled : Bool
  engine : STTEngineType
  state : AudioState
  wake_word_enabled : Bool
  model_loaded : Bool
  last_transcript : String
  error : Option String

/-- `TranscriptionEvent` from `stt/manager.py`. -/
structure TranscriptionEvent where
  text : String
  confidence : ℚ
  duration_seconds : ℚ
  wake_word : Option String

/-- A registered transcription listener: an arbitrary callback that either
returns or raises. -/
def Listener : Type := TranscriptionEvent → Except String Unit

/-- `STTManagerState` from `stt/manager.py`. -/
structure STTManagerState where
  enabled : Bool := false
  model_loaded : Bool := false
  last_transcript : String := ""
  last_wake_word : Option String := none
  error : Option String := none
  listeners : List Listener := []

/-- A recognition engine handle: its configured kind and whether its model is
loaded (`_is_loaded` in `stt/base.py`); the transcription behaviour of a
loaded engine is the `Env.transcribe` oracle. -/
structure Engine where
  engine_type : STTEngineType
  is_loaded : Bool

/-- `WakeWordDetector` from `stt/wake_word.py` (scoring is the `Env.wwScores`
oracle). -/
structure WakeWordDetector where
  wake_words : List String
  threshold : ℚ
  is_loaded : Bool

/-- `WakeWordDetector.detect`: raises `RuntimeError` when the model is not
loaded, otherwise returns the score dictionary (insertion-ordered). -/
def WakeWordDetector.detect (env : Env) (d : WakeWordDetector)
    (chunk : List ℚ) : Except String (List (String × ℚ)) :=
  if ¬ d.is_loaded then
    Except.error "Model not loaded. Call load_model() first."
  else Except.ok (env.wwScores chunk)

/-- `WakeWordDetector.is_wake_word_detected`. -/
def WakeWordDetector.is_wake_word_detected (env : Env) (d : WakeWordDetector)
    (chunk : List ℚ) : Except String (Bool × Option String) :=
  match d.detect env chunk with
  | Except.error e => Except.error e
  | Except.ok scores =>
      match scores.find? (fun p => decide (d.threshold ≤ p.2)) with
      | some p => Except.ok (true, some p.1)
      | none => Except.ok (false, none)

/-- `STTManager`: the coordinator's mutable attributes. -/
structure STTManager where
  config : STTConfig
  engine : Option Engine
  wake_word_detector : Option WakeWordDetector
  audio_processor : AudioProcessor
  _state : STTManagerState

/-- `STTManager.__init__` (model-directory handling omitted: pure path
bookkeeping).  The `AudioProcessor` is constructed with the default sample
rate 16000 and default VAD aggressiveness 2, taking only the two timeout
settings from the configuration. -/
def STTManager.init (config : STTConfig) : STTManager :=
  { config := config
    engine :=
      if config.enabled then some ⟨config.engine, false⟩ else none
    wake_word_detector :=
      if config.enabled ∧ config.wake_word_enabled then
        some ⟨["hey_jarvis"], config.wake_word_threshold, false⟩
      else none
    audio_processor :=
      apInit 16000 config.max_duration_seconds config.silence_timeout_seconds 2
    _state := {} }

/-- `STTManager.load_models`: returns the manager after the call together
with the exception it re-raised, if any. -/
def STTManager.load_models (env : Env) (m : STTManager) :
    STTManager × Option String :=
  match m.engine, env.engineLoad with
  | some _, Except.error e =>
      ({ m with _state := { m._state with error := some e, model_loaded := false } },
       some e)
  | _, _ =>
      let m := { m with engine := m.engine.map (fun en : Engine => { en with is_loaded := true }) }
      match m.wake_word_detector, env.wwLoad with
      | some _, Except.error e =>
          ({ m with _state := { m._state with error := some e, model_loaded := false } },
           some e)
      | _, _ =>
          let m := { m with wake_word_detector :=
            m.wake_word_detector.map (fun d : WakeWordDetector => { d with is_loaded := true }) }
          ({ m with _state :=
              { m._state with model_loaded := true, enabled := true, error := none } },
           none)

/-- The transcription call on the active engine: the engines
(`stt/vosk_engine.py`, `stt/whisper_engine.py`) raise `RuntimeError` when
invoked before `load_model`; a loaded engine behaves as the oracle. -/
def engineTranscribe (env : Env) (eng : Engine) (utt : List ℚ) :
    Except String STTResult :=
  if eng.is_loaded then env.transcribe utt
  else Except.error "Model not loaded. Call load_model() first."

/-- The listener fan-out loop in `STTManager._transcribe_utterance`: each
listener is invoked in registration order and the invocation is recorded;
an exception from a listener is caught and logged. -/
def invokeListeners : List Listener → TranscriptionEvent → ℕ →
    List (ℕ × TranscriptionEvent)
  | [], _, _ => []
  | l :: rest, e, i =>
      match l e with
      | Except.ok _ => (i, e) :: invokeListeners rest e (i + 1)
      | Except.error _ => (i, e) :: invokeListeners rest e (i + 1)

/-- Outcome of a coordinator call: the manager afterwards, the returned
transcription (if any), the listener invocations performed, and the audio
states entered during the call. -/
structure PAOut where
  m : STTManager
  result : Option STTResult
  invs : List (ℕ × TranscriptionEvent)
  trace : List AudioState

/-- `STTManager._transcribe_utterance`. -/
def STTManager.transcribe_utterance (env : Env) (m : STTManager) : PAOut :=
  match m.engine with
  | none => ⟨m, none, [], []⟩
  | some eng =>
      let utterance := m.audio_processor.get_utterance
      if utterance.length = 0 then
        let (ap, tr) := m.audio_processor.on_transcription_complete
        ⟨{ m with audio_processor := ap }, none, [], tr⟩
      else
        match engineTranscribe env eng utterance with
        | Except.ok r =>
            let st := { m._state with last_transcript := r.text }
            let event : TranscriptionEvent :=
              ⟨r.text, r.confidence, r.duration_seconds, st.last_wake_word⟩
            let invs := invokeListeners st.listeners event 0
            let (ap, tr) := m.audio_processor.on_transcription_complete
            ⟨{ m with audio_processor := ap,
                      _state := { st with last_wake_word := none } },
             some r, invs, tr⟩
        | Except.error e =>
            let st := { m._state with error := some e }
            let (ap, tr) := m.audio_processor.on_transcription_complete
            ⟨{ m with audio_processor := ap,
                      _state := { st with last_wake_word := none } },
             none, [], tr⟩

/-- `STTManager.process_audio`.  `Except.error` models an exception
propagating out of the call. -/
def STTManager.process_audio (env : Env) (m : STTManager) (chunk : List ℚ) :
    Except String PAOut :=
  if ¬ (m._state.enabled ∧ m._state.model_loaded) then
    Except.ok ⟨m, none, [], []⟩
  else
    let current_state := m.audio_processor._state
    let gate : Except String (STTManager × List AudioState) :=
      if current_state = AudioState.idle then
        match m.wake_word_detector with
        | some d =>
            if m.config.wake_word_enabled then
              match d.is_wake_word_detected env chunk with
              | Except.error e => Except.error e
              | Except.ok (true, w) =>
                  let (ap, tr) := m.audio_processor.on_wake_word_detected
                  Except.ok
                    ({ m with _state := { m._state with last_wake_word := w },
                              audio_processor := ap }, tr)
              | Except.ok (false, _) => Except.ok (m, [])
            else
              let (ap, tr) := m.audio_processor.on_wake_word_detected
              Except.ok ({ m with audio_processor := ap }, tr)
        | none =>
            let (ap, tr) := m.audio_processor.on_wake_word_detected
            Except.ok ({ m with audio_processor := ap }, tr)
      else Except.ok (m, [])
    match gate with
    | Except.error e => Except.error e
    | Except.ok (m1, t0) =>
        let (ap, t1) := AudioProcessor.process_chunk env m1.audio_processor chunk
        let m2 := { m1 with audio_processor := ap }
        if ap._state = AudioState.processing then
          let o := m2.transcribe_utterance env
          Except.ok ⟨o.m, o.result, o.invs, t0 ++ t1 ++ o.trace⟩
        else Except.ok ⟨m2, none, [], t0 ++ t1⟩

/-- `STTManager.get_status`. -/
def STTManager.get_status (m : STTManager) : STTStatus :=
  { enabled := m._state.enabled
    engine := m.config.engine
    state := m.audio_processor._state
    wake_word_enabled := m.config.wake_word_enabled
    model_loaded := m._state.model_loaded
    last_transcript := m._state.last_transcript
    error := m._state.error }

/-- `STTManager.update_config`. -/
def STTManager.update_config (m : STTManager) (new_config : STTConfig) :
    STTManager :=
  let engine_changed := new_config.engine ≠ m.config.engine
  let wake_word_changed := new_config.wake_word_enabled ≠ m.config.wake_word_enabled
  let m := { m with config := new_config }
  let m := { m with audio_processor :=
    { m.audio_processor with
        silence_timeout_seconds := new_config.silence_timeout_seconds,
        max_duration_seconds := new_config.max_duration_seconds } }
  let m :=
    if engine_changed then
      { m with engine := some ⟨new_config.engine, false⟩,
               _state := { m._state with model_loaded := false } }
    else m
  let fresh_detector : WakeWordDetector :=
    ⟨["hey_jarvis"], new_config.wake_word_threshold, false⟩
  let m :=
    if wake_word_changed then
      if new_config.wake_word_enabled then
        { m with wake_word_detector := some fresh_detector }
      else { m with wake_word_detector := none }
    else m
  let retuned :=
    m.wake_word_detector.map
      (fun d : WakeWordDetector => { d with threshold := new_config.wake_word_threshold })
  let m := { m with wake_word_detector := retuned }
  { m with _state := { m._state with enabled := new_config.enabled } }

/-- `STTManager.start_listening`. -/
def STTManager.start_listening (m : STTManager) : STTManager :=
  if m._state.enabled ∧ m._state.model_loaded then
    { m with audio_processor := m.audio_processor.on_wake_word_detected.1 }
  else m

/-- `STTManager.stop_listening` (the detector-side reset has no bearing on
the modelled state). -/
def STTManager.stop_listening (m : STTManager) : STTManager :=
  { m with audio_processor := m.audio_processor.reset.1 }

/-- Driving a sequence of chunks through `process_audio`, collecting the
audio-state trace; an exception stops the run. -/
def STTManager.run_audio (env : Env) (m : STTManager) :
    List (List ℚ) → Except String STTManager × List AudioState
  | [] => (Except.ok m, [])
  | c :: cs =>
      match m.process_audio env c with
      | Except.error e => (Except.error e, [])
      | Except.ok o =>
          let (r, t) := o.m.run_audio env cs
          (r, o.trace ++ t)

/-- Like `run_audio` but returning only the final manager (used to name
concrete runs). -/
def STTManager.paRun (env : Env) (m : STTManager) : List (List ℚ) → STTManager
  | [] => m
  | c :: cs =>
      match m.process_audio env c with
      | Except.error _ => m
      | Except.ok o => o.m.paRun env cs

/-- The public operations of the `AudioProcessor` (for reachability of its
states). -/
inductive APOp where
  | chunk (c : List ℚ)
  | wake
  | complete
  | reset

def apStep (env : Env) (ap : AudioProcessor) : APOp → AudioProcessor
  | APOp.chunk c => (ap.process_chunk env c).1
  | APOp.wake => ap.on_wake_word_detected.1
  | APOp.complete => ap.on_transcription_complete.1
  | APOp.reset => ap.reset.1

def apRun (env : Env) (ap : AudioProcessor) (ops : List APOp) : AudioProcessor :=
  ops.foldl (apStep env) ap

/-- One permitted step of the documented audio-state cycle
`idle → wake_detected → listening → processing → idle` (or staying put). -/
def cycleStep (a b : AudioState) : Prop :=
  a = b ∨ (a = AudioState.idle ∧ b = AudioState.wake_detected) ∨
    (a = AudioState.wake_detected ∧ b = AudioState.listening) ∨
    (a = AudioState.listening ∧ b = AudioState.processing) ∨
    (a = AudioState.processing ∧ b = AudioState.idle)

/-- `chainEnd a tr b`: starting from state `a`, the successive states `tr`
each follow the cycle, and the last one is `b`. -/
def chainEnd : AudioState → List AudioState → AudioState → Prop
  | a, [], b => a = b
  | a, s :: l, b => cycleStep a s ∧ chainEnd s l b

/-- Ceiling division on naturals, `⌈a / b⌉`. -/
def ceilDiv (a b : ℕ) : ℕ := (a + b - 1) / b

/-! ### Concrete instances used in witnesses and counterexamples -/

/-- A fixed successful transcription result. -/
def okResult : STTResult := ⟨"hello", 1, true, 2⟩

/-- Environment whose VAD classifies every full frame as speech and whose
engine transcribes successfully. -/
def envTrue : Env :=
  { vad := some (fun _ _ => some true)
    wwScores := fun _ => []
    transcribe := fun _ => Except.ok okResult
    engineLoad := Except.ok ()
    wwLoad := Except.ok () }

/-- Environment whose VAD classifies every full frame as non-speech. -/
def envFalse : Env := { envTrue with vad := some (fun _ _ => some false) }

/-- Environment whose engine raises on every transcription. -/
def envBoom : Env := { envTrue with transcribe := fun _ => Except.error "boom" }

/-- Environment without a WebRTC VAD (energy fallback). -/
def envNone : Env := { envTrue with vad := none }

/-- A configuration with wake word disabled (other fields as the source's
defaults). -/
def cfgNoWW : STTConfig :=
  { enabled := true, engine := STTEngineType.vosk_small, wake_word_enabled := false,
    wake_word_threshold := 1/2, silence_timeout_seconds := 3/2,
    max_duration_seconds := 10 }

/-- The same configuration with wake word enabled. -/
def cfgWW : STTConfig := { cfgNoWW with wake_word_enabled := true }

/-- A manager that loaded its models with wake word disabled and then had
wake word enabled through `update_config`: its detector exists but its model
is not loaded, while `enabled` and `model_loaded` are both true. -/
def mWakeUnloaded : STTManager :=
  (((STTManager.init cfgNoWW).load_models envTrue).1).update_config cfgWW

/-- A processor with a non-integral `sample_rate * silence_timeout_seconds`
(3 * 1/2): the stored threshold is `int(1.5) = 1`. -/
def apC5 : AudioProcessor := apInit 3 100 (1/2) 2

/-- A processor with a non-integral `sample_rate * max_duration_seconds`
(3 * 1/2): the stored capacity (deque `maxlen`) is `int(1.5) = 1`. -/
def apC6 : AudioProcessor := apInit 3 (1/2) 100 2

/-- The processor constructed with the source's default parameters. -/
def apDefault : AudioProcessor := apInit 16000 10 (3/2) 2

/-- A processor sitting in `listening` with one buffered sample and a
one-sample silence threshold. -/
def apListen : AudioProcessor :=
  ⟨16000, 10, 3/2, 2, 100, AudioState.listening, [1], 0, 0, 1, 480⟩

/-- A ready manager (engine loaded, no wake word) currently listening. -/
def mListen : STTManager :=
  { config := cfgNoWW
    engine := some ⟨STTEngineType.vosk_small, true⟩
    wake_word_detector := none
    audio_processor := apListen
    _state := { enabled := true, model_loaded := true, last_transcript := "",
                last_wake_word := none, error := none, listeners := [] } }

/-- A wake-word-free configuration with one-second timeouts. -/
def cfgC1a : STTConfig :=
  { enabled := true, engine := STTEngineType.vosk_small, wake_word_enabled := false,
    wake_word_threshold := 1/2, silence_timeout_seconds := 1,
    max_duration_seconds := 1 }

/-- The same configuration with both timeouts shrunk to one sample
(1/16000 s). -/
def cfgC1b : STTConfig :=
  { cfgC1a with silence_timeout_seconds := 1/16000, max_duration_seconds := 1/16000 }

/-- A manager initialised with `cfgC1a`, models loaded, then reconfigured to
`cfgC1b` (engine unchanged, no reload). -/
def mC1 : STTManager :=
  (((STTManager.init cfgC1a).load_models envTrue).1).update_config cfgC1b

/-- That manager after a wake-up chunk and one silent chunk. -/
def mC1run : STTManager := mC1.paRun envTrue [[1], [0]]

/-- A listener whose callback raises on every call. -/
def badListener : Listener := fun _ => Except.error "listener failed"

/-- A well-behaved listener. -/
def goodListener : Listener := fun _ => Except.ok ()

/-- The ready listening manager with a raising listener registered before a
well-behaved one. -/
def mListeners : STTManager :=
  { mListen with _state := { mListen._state with listeners := [badListener, goodListener] } }

/-! ### Helper lemmas -/

theorem pyTruncNat (n : ℕ) (q : ℚ) (h : q = (n : ℚ)) : (pyTrunc q).toNat = n := by
  subst h
  simp [pyTrunc]

theorem apInit_eq (r : ℕ) (d s : ℚ) (v M T F : ℕ)
    (hM : (pyTrunc ((r : ℚ) * d)).toNat = M)
    (hT : (pyTrunc ((r : ℚ) * s)).toNat = T)
    (hF : (pyTrunc ((r : ℚ) * 30 / 1000)).toNat = F) :
    apInit r d s v = ⟨r, d, s, v, M, AudioState.idle, [], 0, 0, T, F⟩ := by
  simp [apInit, hM, hT, hF]

theorem chunkFrames_nil (fs : ℕ) (l : List ℚ) (h : l.length < fs) :
    chunkFrames fs l = [] := by
  rw [chunkFrames]
  cases hl : l.length with
  | zero => rfl
  | succ n => rw [chunkFramesAux]; simp; omega

theorem pyTruncNatFloor (n : ℕ) (q : ℚ) (h1 : (n : ℚ) ≤ q) (h2 : q < n + 1) :
    (pyTrunc q).toNat = n := by
  have h0 : (0 : ℚ) ≤ q := le_trans (by exact_mod_cast Nat.zero_le n) h1
  have hf : ⌊q⌋ = (n : ℤ) := by
    rw [Int.floor_eq_iff]
    constructor
    · exact_mod_cast h1
    · push_cast
      exact h2
  rw [pyTrunc, if_pos h0, hf]
  simp

theorem dequeExtend_length (m : ℕ) (buf l : List ℚ) :
    (dequeExtend m buf l).length = min (buf.length + l.length) m := by
  simp [dequeExtend]
  omega

theorem lt_ceilDiv_iff (T c k : ℕ) (hc : 0 < c) (hT : 0 < T) :
    k < ceilDiv T c ↔ k * c < T := by
  unfold ceilDiv
  rw [Nat.lt_iff_add_one_le, Nat.le_div_iff_mul_le hc, Nat.succ_mul]
  omega

theorem apRun_range_succ (env : Env) (ap : AudioProcessor) (f : ℕ → APOp)
    (k : ℕ) :
    apRun env ap ((List.range (k + 1)).map f)
      = apStep env (apRun env ap ((List.range k).map f)) (f k) := by
  rw [List.range_succ, List.map_append]
  simp [apRun, List.foldl_append]

theorem process_chunk_processing (env : Env) (ap : AudioProcessor)
    (chunk : List ℚ) (hst : ap._state = AudioState.processing) :
    ap.process_chunk env chunk = (ap, []) := by
  unfold AudioProcessor.process_chunk
  rw [hst]

theorem reset_spec (ap : AudioProcessor) :
    ap.reset.1._audio_buffer = [] ∧ ap.reset.1._silence_samples = 0 ∧
    ap.reset.1._speech_samples = 0 ∧ ap.reset.1._state = AudioState.idle := by
  simp only [AudioProcessor.reset, AudioProcessor.set_state]
  split <;> simp_all

theorem is_speech_fields (env : Env) (a b : AudioProcessor) (chunk : List ℚ)
    (h1 : a.sample_rate = b.sample_rate) (h2 : a._vad_frame_size = b._vad_frame_size) :
    a.is_speech env chunk = b.is_speech env chunk := by
  unfold AudioProcessor.is_speech
  rw [h1, h2]

/-- The `listening` branch of `process_chunk` on a chunk classified as
non-speech. -/
theorem process_chunk_listening_silent (env : Env) (ap : AudioProcessor)
    (chunk : List ℚ)
    (hst : ap._state = AudioState.listening)
    (hsp : ap.is_speech env chunk = false) :
    ap.process_chunk env chunk =
      (let buf := dequeExtend ap.max_samples ap._audio_buffer chunk
       let sil := ap._silence_samples + chunk.length
       let fire := ap._silence_threshold ≤ sil ∨ ap.max_samples ≤ buf.length
       ({ ap with _audio_buffer := buf, _silence_samples := sil,
                  _state := if fire then AudioState.processing else AudioState.listening },
        if fire then [AudioState.processing] else [])) := by
  have hfields : AudioProcessor.is_speech env
      { ap with _audio_buffer := dequeExtend ap.max_samples ap._audio_buffer chunk } chunk
      = ap.is_speech env chunk :=
    is_speech_fields env _ ap chunk rfl rfl
  unfold AudioProcessor.process_chunk
  rw [hst]
  simp only [AudioProcessor.set_state, hfields, hsp]
  split_ifs <;> simp_all <;> omega

/-- The `listening` branch of `process_chunk` on a chunk classified as
speech. -/
theorem process_chunk_listening_speech (env : Env) (ap : AudioProcessor)
    (chunk : List ℚ)
    (hst : ap._state = AudioState.listening)
    (hsp : ap.is_speech env chunk = true) :
    ap.process_chunk env chunk =
      (let buf := dequeExtend ap.max_samples ap._audio_buffer chunk
       let fire := ap._silence_threshold ≤ 0 ∨ ap.max_samples ≤ buf.length
       ({ ap with _audio_buffer := buf, _silence_samples := 0,
                  _speech_samples := ap._speech_samples + chunk.length,
                  _state := if fire then AudioState.processing else AudioState.listening },
        if fire then [AudioState.processing] else [])) := by
  have hfields : AudioProcessor.is_speech env
      { ap with _audio_buffer := dequeExtend ap.max_samples ap._audio_buffer chunk } chunk
      = ap.is_speech env chunk :=
    is_speech_fields env _ ap chunk rfl rfl
  unfold AudioProcessor.process_chunk
  rw [hst]
  simp only [AudioProcessor.set_state, hfields, hsp]
  split_ifs <;> simp_all <;> omega

theorem chainEnd_append (a b c : AudioState) (t1 t2 : List AudioState)
    (h1 : chainEnd a t1 b) (h2 : chainEnd b t2 c) : chainEnd a (t1 ++ t2) c := by
  induction t1 generalizing a with
  | nil =>
      have hab : a = b := h1
      subst hab
      simpa using h2
  | cons s l ih =>
      obtain ⟨hs, hrest⟩ := h1
      exact ⟨hs, ih s hrest⟩

theorem set_state_chain (ap : AudioProcessor) (s : AudioState)
    (h : cycleStep ap._state s) :
    chainEnd ap._state (ap.set_state s).2 (ap.set_state s).1._state := by
  unfold AudioProcessor.set_state
  split
  · exact ⟨h, rfl⟩
  · exact rfl

theorem process_chunk_chain (env : Env) (ap : AudioProcessor) (chunk : List ℚ) :
    chainEnd ap._state (ap.process_chunk env chunk).2
      (ap.process_chunk env chunk).1._state := by
  cases hst : ap._state with
  | idle =>
      unfold AudioProcessor.process_chunk
      rw [hst]
      exact hst.symm
  | wake_detected =>
      unfold AudioProcessor.process_chunk
      rw [hst]
      simp only [AudioProcessor.set_state, hst]
      simp [chainEnd, cycleStep]
  | listening =>
      cases hsp : ap.is_speech env chunk with
      | false =>
          rw [process_chunk_listening_silent env ap chunk hst hsp]
          by_cases hfire : ap._silence_threshold ≤ ap._silence_samples + chunk.length ∨
            ap.max_samples ≤ (dequeExtend ap.max_samples ap._audio_buffer chunk).length <;>
            simp [chainEnd, cycleStep, hfire]
      | true =>
          rw [process_chunk_listening_speech env ap chunk hst hsp]
          by_cases hfire : ap._silence_threshold = 0 ∨
            ap.max_samples ≤ (dequeExtend ap.max_samples ap._audio_buffer chunk).length <;>
            simp [chainEnd, cycleStep, hfire]
  | processing =>
      unfold AudioProcessor.process_chunk
      rw [hst]
      exact hst.symm

theorem on_wake_chain_idle (ap : AudioProcessor)
    (h : ap._state = AudioState.idle) :
    chainEnd ap._state ap.on_wake_word_detected.2
      ap.on_wake_word_detected.1._state := by
  unfold AudioProcessor.on_wake_word_detected
  refine set_state_chain ap AudioState.wake_detected ?_
  rw [h]
  simp [cycleStep]

theorem otc_chain (ap : AudioProcessor)
    (h : ap._state = AudioState.processing) :
    chainEnd ap._state ap.on_transcription_complete.2
      ap.on_transcription_complete.1._state := by
  have h2 : ({ ap with _audio_buffer := ([] : List ℚ), _silence_samples := 0, _speech_samples := 0 } : AudioProcessor)._state = AudioState.processing := h
  unfold AudioProcessor.on_transcription_complete AudioProcessor.reset
  exact set_state_chain
    { ap with _audio_buffer := [], _silence_samples := 0, _speech_samples := 0 }
    AudioState.idle (by rw [h2]; simp [cycleStep])

theorem apDefault_eq :
    apDefault = ⟨16000, 10, 3/2, 2, 160000, AudioState.idle, [], 0, 0, 24000, 480⟩ :=
  apInit_eq _ _ _ _ _ _ _ (pyTruncNat 160000 _ (by norm_num))
    (pyTruncNat 24000 _ (by norm_num)) (pyTruncNat 480 _ (by norm_num))

/-- The `wake_detected` branch of `process_chunk`: clear, enter `listening`,
append the chunk. -/
theorem process_chunk_wake (env : Env) (ap : AudioProcessor) (chunk : List ℚ)
    (hst : ap._state = AudioState.wake_detected) :
    ap.process_chunk env chunk =
      ({ ap with _state := AudioState.listening,
                 _audio_buffer := dequeExtend ap.max_samples [] chunk,
                 _silence_samples := 0, _speech_samples := chunk.length },
       [AudioState.listening]) := by
  unfold AudioProcessor.process_chunk
  rw [hst]
  simp [AudioProcessor.set_state, hst]

theorem process_chunk_listening_state (env : Env) (ap : AudioProcessor)
    (chunk : List ℚ) (hst : ap._state = AudioState.listening) :
    (ap.process_chunk env chunk).1._state = AudioState.listening ∨
    (ap.process_chunk env chunk).1._state = AudioState.processing := by
  cases hsp : ap.is_speech env chunk with
  | false =>
      rw [process_chunk_listening_silent env ap chunk hst hsp]
      by_cases hfire : ap._silence_threshold ≤ ap._silence_samples + chunk.length ∨
        ap.max_samples ≤ (dequeExtend ap.max_samples ap._audio_buffer chunk).length <;>
        simp [hfire]
  | true =>
      rw [process_chunk_listening_speech env ap chunk hst hsp]
      by_cases hfire : ap._silence_threshold = 0 ∨
        ap.max_samples ≤ (dequeExtend ap.max_samples ap._audio_buffer chunk).length <;>
        simp [hfire]

theorem on_wake_state (ap : AudioProcessor) :
    ap.on_wake_word_detected.1._state = AudioState.wake_detected := by
  unfold AudioProcessor.on_wake_word_detected AudioProcessor.set_state
  split
  · rfl
  · next hns => exact (not_ne_iff.mp hns).symm

/-- The clear-when-idle invariant is preserved by every public operation. -/
theorem apRun_idle_clear (env : Env) (ops : List APOp) (ap : AudioProcessor)
    (h : ap._state = AudioState.idle →
      ap._audio_buffer = [] ∧ ap._silence_samples = 0 ∧ ap._speech_samples = 0) :
    (apRun env ap ops)._state = AudioState.idle →
      (apRun env ap ops)._audio_buffer = [] ∧
      (apRun env ap ops)._silence_samples = 0 ∧
      (apRun env ap ops)._speech_samples = 0 := by
  induction ops generalizing ap with
  | nil => exact h
  | cons op rest ih =>
      refine ih (apStep env ap op) ?_
      cases op with
      | chunk c =>
          cases hst : ap._state with
          | idle =>
              have he : apStep env ap (APOp.chunk c) = ap := by
                unfold apStep AudioProcessor.process_chunk
                rw [hst]
              rw [he]
              exact h
          | wake_detected =>
              intro habs
              have he := process_chunk_wake env ap c hst
              rw [show apStep env ap (APOp.chunk c) = (ap.process_chunk env c).1 from rfl,
                he] at habs
              simp at habs
          | listening =>
              intro habs
              have hls := process_chunk_listening_state env ap c hst
              rw [show apStep env ap (APOp.chunk c) = (ap.process_chunk env c).1 from rfl]
                at habs
              rw [habs] at hls
              simp at hls
          | processing =>
              have he : apStep env ap (APOp.chunk c) = ap := by
                unfold apStep AudioProcessor.process_chunk
                rw [hst]
              rw [he]
              exact h
      | wake =>
          intro habs
          have hw := on_wake_state ap
          rw [show apStep env ap APOp.wake = ap.on_wake_word_detected.1 from rfl] at habs
          rw [habs] at hw
          simp at hw
      | complete =>
          intro _
          exact ⟨(reset_spec ap).1, (reset_spec ap).2.1, (reset_spec ap).2.2.1⟩
      | reset =>
          intro _
          exact ⟨(reset_spec ap).1, (reset_spec ap).2.1, (reset_spec ap).2.2.1⟩

theorem invokeListeners_enum (ls : List Listener) (e : TranscriptionEvent)
    (i : ℕ) :
    invokeListeners ls e i = (List.range ls.length).map (fun j => (i + j, e)) := by
  induction ls generalizing i with
  | nil => simp [invokeListeners]
  | cons l rest ih =>
      have hcons : invokeListeners (l :: rest) e i
          = (i, e) :: invokeListeners rest e (i + 1) := by
        rw [invokeListeners]
        cases hl : l e <;> rfl
      rw [hcons, ih, List.length_cons, List.range_succ_eq_map, List.map_cons,
        List.map_map]
      have hfg : (fun j => (i + 1 + j, e))
          = ((fun j => (i + j, e)) ∘ Nat.succ) := by
        funext j
        simp only [Function.comp, Prod.mk.injEq, Nat.succ_eq_add_one]
        exact ⟨by omega, trivial⟩
      rw [hfg]
      simp

/-- `process_audio` outside the idle state (no wake-word gating). -/
theorem process_audio_not_idle (env : Env) (m : STTManager) (chunk : List ℚ)
    (h : m.audio_processor._state ≠ AudioState.idle)
    (hen : m._state.enabled = true) (hml : m._state.model_loaded = true) :
    m.process_audio env chunk =
      (let pc := m.audio_processor.process_chunk env chunk
       let m2 : STTManager := { m with audio_processor := pc.1 }
       if pc.1._state = AudioState.processing then
         let o := m2.transcribe_utterance env
         Except.ok ⟨o.m, o.result, o.invs, pc.2 ++ o.trace⟩
       else Except.ok ⟨m2, none, [], pc.2⟩) := by
  rcases hpc : m.audio_processor.process_chunk env chunk with ⟨ap', tr'⟩
  unfold STTManager.process_audio
  rw [if_neg (by simp [hen, hml])]
  simp only [if_neg h, hpc, List.nil_append]

/-- `_transcribe_utterance` when the engine raises. -/
theorem transcribe_utterance_error (env : Env) (m : STTManager) (eng : Engine)
    (e : String)
    (heng : m.engine = some eng) (hl : eng.is_loaded = true)
    (hne : m.audio_processor.get_utterance.length ≠ 0)
    (htr : env.transcribe m.audio_processor.get_utterance = Except.error e) :
    m.transcribe_utterance env =
      ⟨{ m with audio_processor := m.audio_processor.on_transcription_complete.1,
                _state := { m._state with error := some e, last_wake_word := none } },
       none, [], m.audio_processor.on_transcription_complete.2⟩ := by
  rcases hoc : m.audio_processor.on_transcription_complete with ⟨ap2, tr2⟩
  unfold STTManager.transcribe_utterance
  rw [heng]
  simp only [engineTranscribe, hl, if_true, if_neg hne, htr, hoc]

/-- `_transcribe_utterance` on a successful transcription. -/
theorem transcribe_utterance_ok (env : Env) (m : STTManager) (eng : Engine)
    (r : STTResult)
    (heng : m.engine = some eng) (hl : eng.is_loaded = true)
    (hne : m.audio_processor.get_utterance.length ≠ 0)
    (htr : env.transcribe m.audio_processor.get_utterance = Except.ok r) :
    m.transcribe_utterance env =
      ⟨{ m with audio_processor := m.audio_processor.on_transcription_complete.1,
                _state :=
                  { m._state with last_transcript := r.text, last_wake_word := none } },
       some r,
       invokeListeners m._state.listeners
         ⟨r.text, r.confidence, r.duration_seconds, m._state.last_wake_word⟩ 0,
       m.audio_processor.on_transcription_complete.2⟩ := by
  rcases hoc : m.audio_processor.on_transcription_complete with ⟨ap2, tr2⟩
  unfold STTManager.transcribe_utterance
  rw [heng]
  simp only [engineTranscribe, hl, if_true, if_neg hne, htr, hoc]

theorem transcribe_utterance_chain (env : Env) (m : STTManager)
    (h : m.audio_processor._state = AudioState.processing) :
    chainEnd m.audio_processor._state (m.transcribe_utterance env).trace
      (m.transcribe_utterance env).m.audio_processor._state := by
  have hotc := otc_chain m.audio_processor h
  rcases hoc : m.audio_processor.on_transcription_complete with ⟨ap2, tr2⟩
  rw [hoc] at hotc
  unfold STTManager.transcribe_utterance
  rcases heng : m.engine with _ | eng
  · exact rfl
  · by_cases hz : m.audio_processor.get_utterance.length = 0
    · simp only [if_pos hz, hoc]
      exact hotc
    · simp only [if_neg hz, hoc]
      rcases htr : engineTranscribe env eng m.audio_processor.get_utterance with e | r
      · exact hotc
      · exact hotc

theorem process_audio_chain (env : Env) (m : STTManager) (chunk : List ℚ)
    (o : PAOut) (h : m.process_audio env chunk = Except.ok o) :
    chainEnd m.audio_processor._state o.trace o.m.audio_processor._state := by
  have tail : ∀ (m1 : STTManager) (t0 : List AudioState),
      chainEnd m.audio_processor._state t0 m1.audio_processor._state →
      (((match m1.audio_processor.process_chunk env chunk with
         | (ap, t1) =>
           let m2 : STTManager := { m1 with audio_processor := ap }
           if ap._state = AudioState.processing then
             let o2 := m2.transcribe_utterance env
             Except.ok (⟨o2.m, o2.result, o2.invs, t0 ++ t1 ++ o2.trace⟩ : PAOut)
           else Except.ok (⟨m2, none, [], t0 ++ t1⟩ : PAOut)) : Except String PAOut)
        = Except.ok o) →
      chainEnd m.audio_processor._state o.trace o.m.audio_processor._state := by
    intro m1 t0 hgate htail
    rcases hpc : m1.audio_processor.process_chunk env chunk with ⟨ap1, t1⟩
    have hch := process_chunk_chain env m1.audio_processor chunk
    rw [hpc] at hch htail
    by_cases hp : ap1._state = AudioState.processing
    · simp only [if_pos hp] at htail
      have htu := transcribe_utterance_chain env { m1 with audio_processor := ap1 } hp
      cases htail
      exact chainEnd_append _ _ _ _ _
        (chainEnd_append _ _ _ _ _ hgate hch) htu
    · simp only [if_neg hp] at htail
      cases htail
      exact chainEnd_append _ _ _ _ _ hgate hch
  unfold STTManager.process_audio at h
  by_cases hen : m._state.enabled = true ∧ m._state.model_loaded = true
  · rw [if_neg (not_not_intro (by simpa using hen))] at h
    by_cases hidle : m.audio_processor._state = AudioState.idle
    · rcases hdet : m.wake_word_detector with _ | d
      · simp only [if_pos hidle, hdet] at h
        rcases how : m.audio_processor.on_wake_word_detected with ⟨apw, tw⟩
        have hwch := on_wake_chain_idle m.audio_processor hidle
        rw [how] at hwch h
        exact tail ⟨m.config, m.engine, none, apw, m._state⟩ tw hwch h
      · rcases hww : m.config.wake_word_enabled with _ | _
        · simp only [if_pos hidle, hdet, hww, Bool.false_eq_true, if_false] at h
          rcases how : m.audio_processor.on_wake_word_detected with ⟨apw, tw⟩
          have hwch := on_wake_chain_idle m.audio_processor hidle
          rw [how] at hwch h
          exact tail ⟨m.config, m.engine, some d, apw, m._state⟩ tw hwch h
        · simp only [if_pos hidle, hdet, hww, if_true] at h
          rcases hdd : d.is_wake_word_detected env chunk with e | bw
          · rw [hdd] at h
            cases h
          · rcases bw with ⟨b, w⟩
            rcases hb : b with _ | _
            · rw [hb] at hdd
              rw [hdd] at h
              exact tail m [] rfl h
            · rw [hb] at hdd
              rw [hdd] at h
              rcases how : m.audio_processor.on_wake_word_detected with ⟨apw, tw⟩
              have hwch := on_wake_chain_idle m.audio_processor hidle
              rw [how] at hwch h
              exact tail ⟨m.config, m.engine, some d, apw,
                { m._state with last_wake_word := w }⟩ tw hwch h
    · simp only [if_neg hidle] at h
      exact tail m [] rfl h
  · rw [if_pos (by simpa using hen)] at h
    cases h
    exact rfl

/-! ### Claims -/

/-- C2 counterexample: a reachable manager (models loaded with wake word
disabled, then wake word enabled via `update_config`) on which
`process_audio` raises: the wake-word scoring exception propagates out
instead of being absorbed into the error field. -/
theorem c2_counterexample :
    mWakeUnloaded._state.enabled = true ∧
    mWakeUnloaded._state.model_loaded = true ∧
    mWakeUnloaded.process_audio envTrue [0]
      = Except.error "Model not loaded. Call load_model() first." :=
  ⟨rfl, rfl, rfl⟩

/-- C2 amended: `process_audio` never raises except through wake-word scoring
in the idle state; in particular, outside idle it always returns normally,
and a transcription failure is absorbed: the error is recorded in the runtime
state's error field, surfaced through `get_status`, and the call returns
normally with no result, with the audio state reset to idle. -/
theorem c2_amended_errors_absorbed (env : Env) (m : STTManager) (chunk : List ℚ)
    (h : m.audio_processor._state ≠ AudioState.idle) :
    (∃ o, m.process_audio env chunk = Except.ok o) ∧
    (∀ e eng, m._state.enabled = true → m._state.model_loaded = true →
      m.engine = some eng → eng.is_loaded = true →
      (m.audio_processor.process_chunk env chunk).1._state = AudioState.processing →
      (m.audio_processor.process_chunk env chunk).1._audio_buffer ≠ [] →
      env.transcribe (m.audio_processor.process_chunk env chunk).1._audio_buffer
          = Except.error e →
      ∃ o, m.process_audio env chunk = Except.ok o ∧ o.result = none ∧
        o.m._state.error = some e ∧ o.m.get_status.error = some e ∧
        o.m.audio_processor._state = AudioState.idle) := by
  constructor
  · by_cases hen : m._state.enabled = true ∧ m._state.model_loaded = true
    · rw [process_audio_not_idle env m chunk h hen.1 hen.2]
      by_cases hfire :
          (m.audio_processor.process_chunk env chunk).1._state = AudioState.processing
      · simp only [hfire, if_true]
        exact ⟨_, rfl⟩
      · simp only [if_neg hfire]
        exact ⟨_, rfl⟩
    · refine ⟨⟨m, none, [], []⟩, ?_⟩
      unfold STTManager.process_audio
      rw [if_pos (by simpa using hen)]
  · intro e eng hen hml heng hl hproc hne htr
    rw [process_audio_not_idle env m chunk h hen hml]
    simp only [if_pos hproc]
    rw [transcribe_utterance_error env
      { m with audio_processor := (m.audio_processor.process_chunk env chunk).1 }
      eng e heng hl (fun h0 => hne (List.eq_nil_of_length_eq_zero h0)) htr]
    refine ⟨_, rfl, rfl, rfl, rfl, ?_⟩
    exact (reset_spec (m.audio_processor.process_chunk env chunk).1).2.2.2

/-- Witness for C2 amended: a concrete listening manager whose engine raises
`"boom"`; `process_audio` returns normally with the error recorded. -/
theorem c2_amended_errors_absorbed_witness :
    ∃ o, mListen.process_audio envBoom [1] = Except.ok o ∧ o.result = none ∧
      o.m._state.error = some "boom" ∧ o.m.get_status.error = some "boom" ∧
      o.m.audio_processor._state = AudioState.idle :=
  (c2_amended_errors_absorbed envBoom mListen [1] (by decide)).2 "boom"
    ⟨STTEngineType.vosk_small, true⟩ rfl rfl rfl rfl (by decide) (by decide) rfl

/-- C8: after `on_transcription_complete()`, whatever the prior state and
buffer contents, the audio buffer is empty, both counters are zero, and the
state is `idle`. -/
theorem c8_transcription_complete_clears (ap : AudioProcessor) :
    ap.on_transcription_complete.1._audio_buffer = [] ∧
    ap.on_transcription_complete.1._silence_samples = 0 ∧
    ap.on_transcription_complete.1._speech_samples = 0 ∧
    ap.on_transcription_complete.1._state = AudioState.idle :=
  reset_spec ap

theorem mC1_eq : mC1 =
    { config := cfgC1b
      engine := some ⟨STTEngineType.vosk_small, true⟩
      wake_word_detector := none
      audio_processor :=
        ⟨16000, 1/16000, 1/16000, 2, 16000, AudioState.idle, [], 0, 0, 16000, 480⟩
      _state := { enabled := true, model_loaded := true, last_transcript := "",
                  last_wake_word := none, error := none, listeners := [] } } := by
  have hap : apInit 16000 cfgC1a.max_duration_seconds cfgC1a.silence_timeout_seconds 2
      = ⟨16000, 1, 1, 2, 16000, AudioState.idle, [], 0, 0, 16000, 480⟩ :=
    apInit_eq _ _ _ _ _ _ _ (pyTruncNat 16000 _ (by norm_num [cfgC1a]))
      (pyTruncNat 16000 _ (by norm_num [cfgC1a])) (pyTruncNat 480 _ (by norm_num))
  unfold mC1 STTManager.init
  rw [hap]
  rfl

/-- C1: after `update_config` installs new `silence_timeout_seconds` and
`max_duration_seconds` (engine unchanged, no `load_models`), the attributes on
the live processor change but `process_chunk` keeps using the stale cached
`_silence_threshold` and `max_samples` from construction: with the new
timeouts both equal to one sample, the accumulated silence (1 sample) and the
buffer (2 samples) are already past the newly configured bounds, yet the
processor stays in `listening` and its cached threshold and capacity still
hold the old one-second values. -/
theorem c1_update_config_not_applied :
    mC1run.audio_processor.silence_timeout_seconds = 1/16000 ∧
    mC1run.audio_processor.max_duration_seconds = 1/16000 ∧
    (pyTrunc ((16000 : ℚ) * (1/16000))).toNat = 1 ∧
    mC1run.audio_processor._silence_samples = 1 ∧
    mC1run.audio_processor._audio_buffer.length = 2 ∧
    mC1run.audio_processor._silence_threshold = 16000 ∧
    mC1run.audio_processor.max_samples = 16000 ∧
    mC1run.audio_processor._state = AudioState.listening := by
  unfold mC1run
  rw [mC1_eq]
  exact ⟨rfl, rfl, pyTruncNat 1 _ (by norm_num), rfl, rfl, rfl, rfl, rfl⟩

/-- C3: for every sequence of audio chunks delivered through `process_audio`
(no control-path calls interleaved), the trace of audio states entered only
ever steps along the cycle
`idle → wake_detected → listening → processing → idle`
(each observed value either repeats the previous state or is its successor
on the cycle); no other transition is ever observed. -/
theorem c3_trace_follows_cycle (env : Env) (m : STTManager)
    (cs : List (List ℚ)) :
    ∃ s, chainEnd m.audio_processor._state (m.run_audio env cs).2 s := by
  induction cs generalizing m with
  | nil => exact ⟨m.audio_processor._state, rfl⟩
  | cons c rest ih =>
      unfold STTManager.run_audio
      rcases hpa : m.process_audio env c with e | o
      · exact ⟨m.audio_processor._state, rfl⟩
      · have h1 := process_audio_chain env m c o hpa
        obtain ⟨s, hs⟩ := ih o.m
        exact ⟨s, chainEnd_append _ _ _ _ _ h1 hs⟩

/-- C4 counterexample: from the default processor, `wake` / one chunk /
`wake` again (the forced `listening → wake_detected` transition) leaves the
processor in `wake_detected` with a non-empty buffer and a non-zero speech
counter: the buffer and counters are not cleared on the transition into
`wake_detected`. -/
theorem c4_counterexample :
    (apRun envTrue apDefault [APOp.wake, APOp.chunk [1], APOp.wake])._state
        = AudioState.wake_detected ∧
    (apRun envTrue apDefault
        [APOp.wake, APOp.chunk [1], APOp.wake])._audio_buffer.length = 1 ∧
    (apRun envTrue apDefault
        [APOp.wake, APOp.chunk [1], APOp.wake])._speech_samples = 1 := by
  rw [apDefault_eq]
  decide

/-- C4 amended: in every reachable state of the `AudioProcessor`, the buffer
is non-empty only when the state is `wake_detected`, `listening` or
`processing` (equivalently: in `idle` the buffer and both counters are always
cleared); the buffer and counters are cleared at the start of the first
`process_chunk` after the transition into `wake_detected` (not on the
transition itself) and on every return to `idle`. -/
theorem c4_amended_idle_clear :
    (∀ (env : Env) (r : ℕ) (d s : ℚ) (v : ℕ) (ops : List APOp),
      (apRun env (apInit r d s v) ops)._state = AudioState.idle →
        (apRun env (apInit r d s v) ops)._audio_buffer = [] ∧
        (apRun env (apInit r d s v) ops)._silence_samples = 0 ∧
        (apRun env (apInit r d s v) ops)._speech_samples = 0) ∧
    (∀ (env : Env) (ap : AudioProcessor) (chunk : List ℚ),
      ap._state = AudioState.wake_detected →
        (ap.process_chunk env chunk).1._audio_buffer
            = dequeExtend ap.max_samples [] chunk ∧
        (ap.process_chunk env chunk).1._silence_samples = 0 ∧
        (ap.process_chunk env chunk).1._speech_samples = chunk.length) := by
  constructor
  · intro env r d s v ops
    exact apRun_idle_clear env ops (apInit r d s v) (fun _ => ⟨rfl, rfl, rfl⟩)
  · intro env ap chunk hst
    rw [process_chunk_wake env ap chunk hst]
    exact ⟨rfl, rfl, rfl⟩

/-- Witness for C4 amended: the empty run from the default-initialised
processor, and one concrete chunk processed in `wake_detected`. -/
theorem c4_amended_idle_clear_witness :
    ((apRun envTrue (apInit 16000 10 (3/2) 2) [])._audio_buffer = [] ∧
     (apRun envTrue (apInit 16000 10 (3/2) 2) [])._silence_samples = 0 ∧
     (apRun envTrue (apInit 16000 10 (3/2) 2) [])._speech_samples = 0) ∧
    ((AudioProcessor.process_chunk envTrue
        ⟨16000, 10, 3/2, 2, 160000, AudioState.wake_detected, [2], 5, 7, 24000, 480⟩
        [1]).1._audio_buffer = dequeExtend 160000 [] [1] ∧
     (AudioProcessor.process_chunk envTrue
        ⟨16000, 10, 3/2, 2, 160000, AudioState.wake_detected, [2], 5, 7, 24000, 480⟩
        [1]).1._silence_samples = 0 ∧
     (AudioProcessor.process_chunk envTrue
        ⟨16000, 10, 3/2, 2, 160000, AudioState.wake_detected, [2], 5, 7, 24000, 480⟩
        [1]).1._speech_samples = 1) :=
  ⟨c4_amended_idle_clear.1 envTrue 16000 10 (3/2) 2 [] rfl,
   c4_amended_idle_clear.2 envTrue
     ⟨16000, 10, 3/2, 2, 160000, AudioState.wake_detected, [2], 5, 7, 24000, 480⟩
     [1] rfl⟩

/-- C5 amended: starting in `listening` with the silence counter at zero,
for chunks of fixed size `c > 0` all classified non-speech (buffer staying
below capacity), `process_chunk` first returns `processing` on exactly the
`⌈T / c⌉`-th chunk, where `T` is the stored `_silence_threshold`
(`int(silence_timeout_seconds * sample_rate)` from construction), and returns
`listening` on every earlier one. -/
theorem c5_amended_silence_timeout (env : Env) (ap : AudioProcessor)
    (cs : ℕ → List ℚ) (c : ℕ)
    (hst : ap._state = AudioState.listening)
    (hs0 : ap._silence_samples = 0)
    (hT : 0 < ap._silence_threshold)
    (hc : 0 < c)
    (hlen : ∀ i, (cs i).length = c)
    (hns : ∀ i, ap.is_speech env (cs i) = false)
    (hcap : ap._audio_buffer.length + ceilDiv ap._silence_threshold c * c
        < ap.max_samples) :
    (∀ k, k < ceilDiv ap._silence_threshold c →
      (apRun env ap ((List.range k).map (fun i => APOp.chunk (cs i))))._state
        = AudioState.listening) ∧
    (apRun env ap ((List.range (ceilDiv ap._silence_threshold c)).map
        (fun i => APOp.chunk (cs i))))._state = AudioState.processing := by
  have inv : ∀ k, k < ceilDiv ap._silence_threshold c →
      ((apRun env ap ((List.range k).map (fun i => APOp.chunk (cs i))))._state
          = AudioState.listening ∧
       (apRun env ap ((List.range k).map
          (fun i => APOp.chunk (cs i))))._silence_samples = k * c ∧
       (apRun env ap ((List.range k).map
          (fun i => APOp.chunk (cs i))))._audio_buffer.length
          = ap._audio_buffer.length + k * c ∧
       (apRun env ap ((List.range k).map
          (fun i => APOp.chunk (cs i))))._silence_threshold
          = ap._silence_threshold ∧
       (apRun env ap ((List.range k).map
          (fun i => APOp.chunk (cs i)))).max_samples = ap.max_samples ∧
       (apRun env ap ((List.range k).map
          (fun i => APOp.chunk (cs i)))).sample_rate = ap.sample_rate ∧
       (apRun env ap ((List.range k).map
          (fun i => APOp.chunk (cs i))))._vad_frame_size = ap._vad_frame_size) := by
    intro k
    induction k with
    | zero =>
        intro _
        simp only [List.range_zero, List.map_nil]
        refine ⟨hst, ?_, ?_, rfl, rfl, rfl, rfl⟩
        · simpa [apRun] using hs0
        · simp [apRun]
    | succ k ih =>
        intro hk1
        have hk : k < ceilDiv ap._silence_threshold c := Nat.lt_of_succ_lt hk1
        obtain ⟨ha1, ha2, ha3, ha4, ha5, ha6, ha7⟩ := ih hk
        rw [apRun_range_succ]
        set a := apRun env ap ((List.range k).map (fun i => APOp.chunk (cs i)))
          with hadef
        have hspa : a.is_speech env (cs k) = false := by
          rw [is_speech_fields env a ap (cs k) ha6 ha7]
          exact hns k
        have hstep := process_chunk_listening_silent env a (cs k) ha1 hspa
        have hK1 : (k + 1) * c = k * c + c := Nat.succ_mul k c
        have hmul1 : (k + 1) * c < ap._silence_threshold :=
          (lt_ceilDiv_iff ap._silence_threshold c (k + 1) hc hT).mp hk1
        have hmul2 : (k + 1) * c ≤ ceilDiv ap._silence_threshold c * c :=
          Nat.mul_le_mul_right c (le_of_lt hk1)
        have hblen : (dequeExtend a.max_samples a._audio_buffer (cs k)).length
            = ap._audio_buffer.length + (k + 1) * c := by
          rw [dequeExtend_length, ha3, ha5, hlen k]
          omega
        have hfire : ¬(a._silence_threshold
              ≤ a._silence_samples + (cs k).length ∨
            a.max_samples
              ≤ (dequeExtend a.max_samples a._audio_buffer (cs k)).length) := by
          rw [hblen, ha2, ha4, ha5, hlen k]
          omega
        simp only [apStep, hstep, if_neg hfire]
        refine ⟨trivial, ?_, ?_, ha4, ha5, ha6, ha7⟩
        · rw [ha2, hlen k]
          omega
        · exact hblen
  constructor
  · exact fun k hk => (inv k hk).1
  · have hn1 : 0 < ceilDiv ap._silence_threshold c :=
      (lt_ceilDiv_iff ap._silence_threshold c 0 hc hT).mpr (by simpa using hT)
    obtain ⟨m, hm⟩ : ∃ m, ceilDiv ap._silence_threshold c = m + 1 :=
      ⟨ceilDiv ap._silence_threshold c - 1, by omega⟩
    have hkm : m < ceilDiv ap._silence_threshold c := by omega
    obtain ⟨ha1, ha2, ha3, ha4, ha5, ha6, ha7⟩ := inv m hkm
    rw [hm, apRun_range_succ]
    set a := apRun env ap ((List.range m).map (fun i => APOp.chunk (cs i)))
      with hadef
    have hspa : a.is_speech env (cs m) = false := by
      rw [is_speech_fields env a ap (cs m) ha6 ha7]
      exact hns m
    have hstep := process_chunk_listening_silent env a (cs m) ha1 hspa
    have hK1 : (m + 1) * c = m * c + c := Nat.succ_mul m c
    have hge : ap._silence_threshold ≤ (m + 1) * c := by
      have := (lt_ceilDiv_iff ap._silence_threshold c
        (ceilDiv ap._silence_threshold c) hc hT).not.mp (lt_irrefl _)
      rw [hm] at this
      omega
    have hfire : a._silence_threshold ≤ a._silence_samples + (cs m).length ∨
        a.max_samples
          ≤ (dequeExtend a.max_samples a._audio_buffer (cs m)).length := by
      left
      rw [ha2, ha4, hlen m]
      omega
    simp only [apStep, hstep, if_pos hfire]

theorem apC5_eq :
    apC5 = ⟨3, 100, 1/2, 2, 300, AudioState.idle, [], 0, 0, 1, 0⟩ :=
  apInit_eq _ _ _ _ _ _ _ (pyTruncNat 300 _ (by norm_num))
    (pyTruncNatFloor 1 _ (by norm_num) (by norm_num))
    (pyTruncNatFloor 0 _ (by norm_num) (by norm_num))

/-- C5 counterexample: with `silence_timeout_seconds = 1/2` at a sample rate
of 3 the stored threshold is `int(1.5) = 1` sample; a single silent chunk of
`c = 1` sample already fires the transition (the silence counter reaches the
threshold on chunk 1), while the claimed chunk count
`ceil(silence_timeout_seconds * sample_rate / c)` is 2. -/
theorem c5_counterexample :
    (apRun envNone apC5 [APOp.wake, APOp.chunk [1]])._state
        = AudioState.listening ∧
    (apRun envNone apC5 [APOp.wake, APOp.chunk [1]])._silence_samples = 0 ∧
    (apRun envNone apC5 [APOp.wake, APOp.chunk [1], APOp.chunk [0]])._state
        = AudioState.processing ∧
    ⌈(1/2 : ℚ) * 3 / 1⌉ = 2 := by
  have hpre : apRun envNone apC5 [APOp.wake, APOp.chunk [1]]
      = ⟨3, 100, 1/2, 2, 300, AudioState.listening, [1], 0, 1, 1, 0⟩ := by
    rw [apC5_eq]
    rfl
  have hsp : AudioProcessor.is_speech envNone
      (⟨3, 100, 1/2, 2, 300, AudioState.listening, [1], 0, 1, 1, 0⟩ : AudioProcessor)
      [0] = false := by
    unfold AudioProcessor.is_speech
    simp [envNone, envTrue, sumSq]
  have hrun : apRun envNone apC5 [APOp.wake, APOp.chunk [1], APOp.chunk [0]]
      = apStep envNone (apRun envNone apC5 [APOp.wake, APOp.chunk [1]])
          (APOp.chunk [0]) := rfl
  refine ⟨by rw [hpre], by rw [hpre], ?_, by norm_num [Int.ceil_eq_iff]⟩
  rw [hrun, hpre]
  simp only [apStep]
  rw [process_chunk_listening_silent envNone _ [0] rfl hsp]
  simp

/-- Witness for C5 amended at a one-sample chunk size and threshold 2. -/
theorem c5_amended_silence_timeout_witness :
    (apRun envFalse ⟨1, 1, 1, 2, 10, AudioState.listening, [], 0, 0, 2, 1⟩
        ((List.range 1).map (fun _ => APOp.chunk [0])))._state
        = AudioState.listening ∧
    (apRun envFalse ⟨1, 1, 1, 2, 10, AudioState.listening, [], 0, 0, 2, 1⟩
        ((List.range (ceilDiv 2 1)).map (fun _ => APOp.chunk [0])))._state
        = AudioState.processing := by
  have hns : AudioProcessor.is_speech envFalse
      ⟨1, 1, 1, 2, 10, AudioState.listening, [], 0, 0, 2, 1⟩ [0] = false := by
    decide
  have h := c5_amended_silence_timeout envFalse
    ⟨1, 1, 1, 2, 10, AudioState.listening, [], 0, 0, 2, 1⟩ (fun _ => [0]) 1
    rfl rfl (by decide) (by decide) (fun _ => rfl) (fun _ => hns) (by decide)
  exact ⟨h.1 1 (by decide), h.2⟩

theorem sum_range_succ_lengths (cs : ℕ → List ℚ) (k : ℕ) :
    ((List.range (k + 1)).map (fun i => (cs i).length)).sum
      = ((List.range k).map (fun i => (cs i).length)).sum + (cs k).length := by
  rw [List.range_succ, List.map_append]
  simp

/-- C6 amended: starting in `listening` with a positive silence threshold and
the buffer below capacity, feeding only speech-classified chunks, the buffered
sample count never exceeds the stored capacity `max_samples`
(`int(sample_rate * max_duration_seconds)` from construction, the deque's
`maxlen`), and the processor is in `processing` exactly when at least one
chunk has been fed and the total delivered samples have reached that
capacity. -/
theorem c6_amended_max_duration (env : Env) (ap : AudioProcessor)
    (cs : ℕ → List ℚ)
    (hst : ap._state = AudioState.listening)
    (hT : 0 < ap._silence_threshold)
    (hb0 : ap._audio_buffer.length < ap.max_samples)
    (hsp : ∀ i, ap.is_speech env (cs i) = true) :
    ∀ k,
      (apRun env ap
          ((List.range k).map (fun i => APOp.chunk (cs i))))._audio_buffer.length
        ≤ ap.max_samples ∧
      ((apRun env ap ((List.range k).map (fun i => APOp.chunk (cs i))))._state
          = AudioState.processing ↔
        (1 ≤ k ∧ ap.max_samples ≤ ap._audio_buffer.length
            + ((List.range k).map (fun i => (cs i).length)).sum)) := by
  have inv : ∀ k,
      ((apRun env ap ((List.range k).map
          (fun i => APOp.chunk (cs i))))._silence_threshold
          = ap._silence_threshold ∧
       (apRun env ap ((List.range k).map
          (fun i => APOp.chunk (cs i)))).max_samples = ap.max_samples ∧
       (apRun env ap ((List.range k).map
          (fun i => APOp.chunk (cs i)))).sample_rate = ap.sample_rate ∧
       (apRun env ap ((List.range k).map
          (fun i => APOp.chunk (cs i))))._vad_frame_size = ap._vad_frame_size) ∧
      (((apRun env ap ((List.range k).map (fun i => APOp.chunk (cs i))))._state
            = AudioState.listening ∧
        (apRun env ap ((List.range k).map
            (fun i => APOp.chunk (cs i))))._audio_buffer.length
            = ap._audio_buffer.length
              + ((List.range k).map (fun i => (cs i).length)).sum ∧
        ap._audio_buffer.length
            + ((List.range k).map (fun i => (cs i).length)).sum
            < ap.max_samples) ∨
       ((apRun env ap ((List.range k).map (fun i => APOp.chunk (cs i))))._state
            = AudioState.processing ∧
        1 ≤ k ∧
        ap.max_samples ≤ ap._audio_buffer.length
            + ((List.range k).map (fun i => (cs i).length)).sum ∧
        (apRun env ap ((List.range k).map
            (fun i => APOp.chunk (cs i))))._audio_buffer.length
            = ap.max_samples)) := by
    intro k
    induction k with
    | zero =>
        refine ⟨⟨rfl, rfl, rfl, rfl⟩, Or.inl ⟨?_, ?_, ?_⟩⟩
        · simpa [apRun] using hst
        · simp [apRun]
        · simpa using hb0
    | succ k ih =>
        obtain ⟨⟨hf1, hf2, hf3, hf4⟩, hcase⟩ := ih
        rw [apRun_range_succ, sum_range_succ_lengths]
        set a := apRun env ap ((List.range k).map (fun i => APOp.chunk (cs i)))
          with hadef
        rcases hcase with ⟨hs1, hs2, hs3⟩ | ⟨hs1, hs2, hs3, hs4⟩
        · have hspa : a.is_speech env (cs k) = true := by
            rw [is_speech_fields env a ap (cs k) hf3 hf4]
            exact hsp k
          have hstep := process_chunk_listening_speech env a (cs k) hs1 hspa
          have hblen : (dequeExtend a.max_samples a._audio_buffer (cs k)).length
              = min (ap._audio_buffer.length
                  + (((List.range k).map (fun i => (cs i).length)).sum
                    + (cs k).length)) ap.max_samples := by
            rw [dequeExtend_length, hs2, hf2]
            congr 1
            omega
          by_cases hcap : ap.max_samples ≤ ap._audio_buffer.length
              + (((List.range k).map (fun i => (cs i).length)).sum
                + (cs k).length)
          · have hfire : a._silence_threshold ≤ 0 ∨ a.max_samples
                ≤ (dequeExtend a.max_samples a._audio_buffer (cs k)).length := by
              right
              rw [hblen, hf2]
              omega
            simp only [apStep, hstep, if_pos hfire]
            refine ⟨⟨hf1, hf2, hf3, hf4⟩, Or.inr ⟨trivial, by omega, hcap, ?_⟩⟩
            rw [hblen]
            omega
          · have hfire : ¬(a._silence_threshold ≤ 0 ∨ a.max_samples
                ≤ (dequeExtend a.max_samples a._audio_buffer (cs k)).length) := by
              rw [hblen, hf2, hf1]
              push_neg
              constructor
              · omega
              · omega
            simp only [apStep, hstep, if_neg hfire]
            refine ⟨⟨hf1, hf2, hf3, hf4⟩, Or.inl ⟨trivial, ?_, by omega⟩⟩
            rw [hblen]
            omega
        · have hstep := process_chunk_processing env a (cs k) hs1
          simp only [apStep, hstep]
          refine ⟨⟨hf1, hf2, hf3, hf4⟩, Or.inr ⟨hs1, by omega, ?_, hs4⟩⟩
          have : 0 ≤ (cs k).length := Nat.zero_le _
          omega
  intro k
  obtain ⟨⟨hf1, hf2, hf3, hf4⟩, hcase⟩ := inv k
  rcases hcase with ⟨hs1, hs2, hs3⟩ | ⟨hs1, hs2, hs3, hs4⟩
  · constructor
    · rw [hs2]
      omega
    · constructor
      · intro habs
        rw [habs] at hs1
        cases hs1
      · rintro ⟨-, hcap⟩
        omega
  · constructor
    · rw [hs4]
    · constructor
      · intro _
        exact ⟨hs2, hs3⟩
      · intro _
        exact hs1

theorem apC6_eq :
    apC6 = ⟨3, 1/2, 100, 2, 1, AudioState.idle, [], 0, 0, 300, 0⟩ :=
  apInit_eq _ _ _ _ _ _ _ (pyTruncNatFloor 1 _ (by norm_num) (by norm_num))
    (pyTruncNat 300 _ (by norm_num))
    (pyTruncNatFloor 0 _ (by norm_num) (by norm_num))

/-- C6 counterexample: with `max_duration_seconds = 1/2` at a sample rate of
3 the stored capacity (and deque `maxlen`) is `int(1.5) = 1`; one buffered
speech sample already forces `processing`, although the buffered count (1)
is still strictly below the claimed capacity
`sample_rate * max_duration_seconds = 1.5`. -/
theorem c6_counterexample :
    (apRun envNone apC6 [APOp.wake, APOp.chunk [1], APOp.chunk [1]])._state
        = AudioState.processing ∧
    (apRun envNone apC6
        [APOp.wake, APOp.chunk [1], APOp.chunk [1]])._audio_buffer.length = 1 ∧
    ((1 : ℚ) < 3 * (1/2)) := by
  have hpre : apRun envNone apC6 [APOp.wake, APOp.chunk [1]]
      = ⟨3, 1/2, 100, 2, 1, AudioState.listening, [1], 0, 1, 300, 0⟩ := by
    rw [apC6_eq]
    rfl
  have hsp : AudioProcessor.is_speech envNone
      (⟨3, 1/2, 100, 2, 1, AudioState.listening, [1], 0, 1, 300, 0⟩ : AudioProcessor)
      [1] = true := by
    unfold AudioProcessor.is_speech
    simp [envNone, envTrue, sumSq]
    norm_num
  have hrun : apRun envNone apC6 [APOp.wake, APOp.chunk [1], APOp.chunk [1]]
      = apStep envNone (apRun envNone apC6 [APOp.wake, APOp.chunk [1]])
          (APOp.chunk [1]) := rfl
  refine ⟨?_, ?_, by norm_num⟩
  · rw [hrun, hpre]
    simp only [apStep]
    rw [process_chunk_listening_speech envNone _ [1] rfl hsp]
    simp [dequeExtend]
  · rw [hrun, hpre]
    simp only [apStep]
    rw [process_chunk_listening_speech envNone _ [1] rfl hsp]
    simp [dequeExtend]

/-- Witness for C6 amended: one-sample speech chunks into a capacity of 3. -/
theorem c6_amended_max_duration_witness :
    (apRun envTrue ⟨1, 1, 1, 2, 3, AudioState.listening, [], 0, 0, 5, 1⟩
        ((List.range 3).map (fun _ => APOp.chunk [1])))._audio_buffer.length
      ≤ 3 ∧
    ((apRun envTrue ⟨1, 1, 1, 2, 3, AudioState.listening, [], 0, 0, 5, 1⟩
        ((List.range 3).map (fun _ => APOp.chunk [1])))._state
        = AudioState.processing ↔
      (1 ≤ 3 ∧ 3 ≤ 0 + ((List.range 3).map (fun _ => ([(1 : ℚ)]).length)).sum)) := by
  have hspw : AudioProcessor.is_speech envTrue
      ⟨1, 1, 1, 2, 3, AudioState.listening, [], 0, 0, 5, 1⟩ [1] = true := by
    decide
  exact c6_amended_max_duration envTrue
    ⟨1, 1, 1, 2, 3, AudioState.listening, [], 0, 0, 5, 1⟩ (fun _ => [1])
    rfl (by decide) (by decide) (fun _ => hspw) 3

/-- C7: whenever the runtime `enabled` flag or `model_loaded` is false,
`process_audio` returns `None` and leaves the whole manager (audio state,
buffer, counters, runtime state) unchanged, performing no listener calls and
entering no new audio state. -/
theorem c7_disabled_noop (env : Env) (m : STTManager) (chunk : List ℚ)
    (h : m._state.enabled = false ∨ m._state.model_loaded = false) :
    m.process_audio env chunk = Except.ok ⟨m, none, [], []⟩ := by
  unfold STTManager.process_audio
  rcases h with h | h <;> simp [h]

/-- Witness for C7 at a concrete disabled manager. -/
theorem c7_disabled_noop_witness :
    (STTManager.init ⟨true, STTEngineType.vosk_small, true, 1/2, 3/2, 10⟩)._state.enabled
        = false ∧
    (STTManager.init ⟨true, STTEngineType.vosk_small, true, 1/2, 3/2, 10⟩).process_audio
        envTrue [0]
      = Except.ok ⟨STTManager.init ⟨true, STTEngineType.vosk_small, true, 1/2, 3/2, 10⟩,
          none, [], []⟩ :=
  ⟨rfl, c7_disabled_noop envTrue _ [0] (Or.inl rfl)⟩

/-- C9: on a successful transcription, the `TranscriptionEvent` is delivered
to every registered listener in registration order; a listener whose callback
raises does not prevent any other listener's delivery and does not alter the
manager's state: the outcome is determined by the listener count alone, never
by whether any callback raised. -/
theorem c9_listener_isolation (env : Env) (m : STTManager) (eng : Engine)
    (r : STTResult)
    (heng : m.engine = some eng) (hl : eng.is_loaded = true)
    (hne : m.audio_processor.get_utterance.length ≠ 0)
    (htr : env.transcribe m.audio_processor.get_utterance = Except.ok r) :
    m.transcribe_utterance env =
      ⟨{ m with audio_processor := m.audio_processor.on_transcription_complete.1,
                _state :=
                  { m._state with last_transcript := r.text, last_wake_word := none } },
       some r,
       (List.range m._state.listeners.length).map
         (fun i => (i, ⟨r.text, r.confidence, r.duration_seconds,
            m._state.last_wake_word⟩)),
       m.audio_processor.on_transcription_complete.2⟩ := by
  rw [transcribe_utterance_ok env m eng r heng hl hne htr, invokeListeners_enum]
  simp

/-- Witness for C9: a raising listener registered before a well-behaved one;
both are invoked, in order, and the state update is the ordinary one. -/
theorem c9_listener_isolation_witness :
    mListeners.transcribe_utterance envTrue =
      ⟨{ mListeners with
          audio_processor := mListeners.audio_processor.on_transcription_complete.1,
          _state :=
            { mListeners._state with last_transcript := okResult.text, last_wake_word := none } },
       some okResult,
       [(0, ⟨okResult.text, okResult.confidence, okResult.duration_seconds, none⟩),
        (1, ⟨okResult.text, okResult.confidence, okResult.duration_seconds, none⟩)],
       mListeners.audio_processor.on_transcription_complete.2⟩ := by
  rw [c9_listener_isolation envTrue mListeners ⟨STTEngineType.vosk_small, true⟩
    okResult rfl rfl (by decide) rfl]
  rfl

/-- C10: with the WebRTC VAD available and the VAD frame size equal to
`sample_rate * 0.03` samples, `is_speech` is false for every chunk with fewer
samples than one frame, whatever its content; in `listening`, such a chunk
accumulates the silence counter and leaves the speech counter unchanged. -/
theorem c10_short_chunk_is_silence (env : Env) (v : List ℚ → ℕ → Option Bool)
    (ap : AudioProcessor) (chunk : List ℚ)
    (hv : env.vad = some v)
    (hframe : (ap._vad_frame_size : ℚ) = (ap.sample_rate : ℚ) * 3 / 100)
    (hlen : (chunk.length : ℚ) < (ap.sample_rate : ℚ) * 3 / 100) :
    ap.is_speech env chunk = false ∧
    (ap._state = AudioState.listening →
      (ap.process_chunk env chunk).1._silence_samples
          = ap._silence_samples + chunk.length ∧
      (ap.process_chunk env chunk).1._speech_samples = ap._speech_samples) := by
  have hlt : chunk.length < ap._vad_frame_size := by
    rw [← hframe] at hlen
    exact_mod_cast hlen
  have hsp : ap.is_speech env chunk = false := by
    unfold AudioProcessor.is_speech
    rw [hv, chunkFrames_nil _ _ hlt]
    simp
  refine ⟨hsp, fun hst => ?_⟩
  rw [process_chunk_listening_silent env ap chunk hst hsp]
  simp

/-- Witness for C10 at a concrete processor and 2-sample chunk. -/
theorem c10_short_chunk_is_silence_witness :
    (AudioProcessor.is_speech envTrue
        ⟨16000, 10, 3/2, 2, 160000, AudioState.listening, [], 5, 7, 24000, 480⟩ [1, 1]
      = false) ∧
    ((AudioProcessor.process_chunk envTrue
        ⟨16000, 10, 3/2, 2, 160000, AudioState.listening, [], 5, 7, 24000, 480⟩
        [1, 1]).1._silence_samples = 5 + 2 ∧
     (AudioProcessor.process_chunk envTrue
        ⟨16000, 10, 3/2, 2, 160000, AudioState.listening, [], 5, 7, 24000, 480⟩
        [1, 1]).1._speech_samples = 7) :=
  ⟨(c10_short_chunk_is_silence envTrue _ _ [1, 1] rfl (by norm_num) (by norm_num)).1,
   (c10_short_chunk_is_silence envTrue _ _ [1, 1] rfl (by norm_num) (by norm_num)).2 rfl⟩

